import Mathlib

/-!
# Verification of the AI-Zoom-Assistant real-time session core

A shallow embedding of the client session core of the repository:

* `WS` — the `WebSocketService` class of `frontend/src/services/api.ts`
  (handler registry `on`/`off`/`emit`, `connect`/`disconnect`/`send`, the
  reconnect timer, and the event handlers installed by `connect`);
* `Rec` — the `useAudioRecorder` hook (`calculateAudioLevel`,
  `stopRecording`);
* `App` — the session-controller handlers of `App.tsx`
  (`handleAudioData`, `handleToggleMute`, `handleToggleConnection`, and the
  WebSocket event subscriptions), with a reachability relation over the
  sequential operational model;
* `Seg` — the Segmentation Buffer of spec §4.3, modelled from the spec
  because the design is not implemented in the shown code.

JavaScript idioms are embedded as follows: `null`able references become
`Option`, `Map<string, Function[]>` becomes an association list, callback
identity becomes a numeric id, a callback that throws is flagged by a
boolean and exception propagation is an explicit boolean in each result,
and every externally visible effect (handler invocation, console output,
socket send) is recorded in an explicit action trace.
-/

namespace ZoomCore

/-- A registered message handler.  JavaScript `Function` identity is
modelled by `id`; `throws` records whether invoking the handler raises an
exception. -/
structure Handler where
  id : Nat
  throws : Bool
deriving DecidableEq

/-- The `messageHandlers: Map<string, Function[]>` field, as an association
list from event name to the registered handler array. -/
abbrev HandlerMap := List (String × List Handler)

/-- `Map.get`: the value stored for `k`, or `none` (`undefined`). -/
def mapGet (m : HandlerMap) (k : String) : Option (List Handler) :=
  match m with
  | [] => none
  | (k', v) :: rest => if k = k' then some v else mapGet rest k

/-- `Map.set`: overwrite the entry for `k`, or append a fresh one. -/
def mapSet (m : HandlerMap) (k : String) (v : List Handler) : HandlerMap :=
  match m with
  | [] => [(k, v)]
  | (k', v') :: rest => if k = k' then (k', v) :: rest else (k', v') :: mapSet rest k v

namespace WS

/-- `on(event, handler)`: if the map has no array for `event`, store an
empty one; then push `handler` onto the stored array. -/
def «on» (m : HandlerMap) (event : String) (h : Handler) : HandlerMap :=
  let m1 := if (mapGet m event).isSome then m else mapSet m event []
  mapSet m1 event ((mapGet m1 event).getD [] ++ [h])

/-- `handlers.indexOf(handler)` followed by `splice(index, 1)`: drop the
first occurrence of `h`, or leave the list unchanged when `h` is absent. -/
def removeFirst (hs : List Handler) (h : Handler) : List Handler :=
  match hs with
  | [] => []
  | x :: rest => if x = h then rest else x :: removeFirst rest h

/-- `off(event, handler)`: if an array is stored for `event`, splice out
the first occurrence of `handler` (no-op when the index is `-1`). -/
def off (m : HandlerMap) (event : String) (h : Handler) : HandlerMap :=
  match mapGet m event with
  | none => m
  | some hs => mapSet m event (removeFirst hs h)

/-- The handler array `emit` observes for an event: the stored array, or
the empty one when the key is absent (in which case `forEach` never runs). -/
def handlersFor (m : HandlerMap) (event : String) : List Handler :=
  (mapGet m event).getD []

/-- `handlers.forEach(handler => handler(data))`: invoke the handlers in
array order; an exception thrown by one propagates out of `forEach`
immediately, so the handlers after it are not invoked.  Returns the
invocation trace and whether an exception escaped. -/
def runHandlers : List Handler → List Handler × Bool
  | [] => ([], false)
  | h :: rest =>
    if h.throws then ([h], true)
    else
      let r := runHandlers rest
      (h :: r.1, r.2)

/-- `emit(event, data)`: look the event up in `messageHandlers` and run the
stored array (no-op when the event has no entry). -/
def emit (m : HandlerMap) (event : String) : List Handler × Bool :=
  match mapGet m event with
  | none => ([], false)
  | some hs => runHandlers hs

theorem mapGet_mapSet_self (m : HandlerMap) (k : String) (v : List Handler) :
    mapGet (mapSet m k v) k = some v := by
  induction m with
  | nil => simp [mapSet, mapGet]
  | cons p rest ih =>
    obtain ⟨k', v'⟩ := p
    by_cases h : k = k' <;> simp [mapSet, mapGet, h, ih]

theorem mapGet_mapSet_ne (m : HandlerMap) (k k' : String) (v : List Handler)
    (h : k' ≠ k) : mapGet (mapSet m k v) k' = mapGet m k' := by
  induction m with
  | nil => simp [mapSet, mapGet, h]
  | cons p rest ih =>
    obtain ⟨k0, v0⟩ := p
    by_cases hk : k = k0
    · subst hk
      simp [mapSet, mapGet, h]
    · by_cases hk' : k' = k0 <;> simp [mapSet, mapGet, hk, hk', ih]

theorem handlersFor_on_self (m : HandlerMap) (event : String) (h : Handler) :
    handlersFor («on» m event h) event = handlersFor m event ++ [h] := by
  unfold «on» handlersFor
  cases hm : mapGet m event with
  | none => simp [hm, mapGet_mapSet_self]
  | some hs => simp [hm, mapGet_mapSet_self]

theorem handlersFor_on_ne (m : HandlerMap) (event event' : String) (h : Handler)
    (hne : event' ≠ event) :
    handlersFor («on» m event h) event' = handlersFor m event' := by
  unfold «on» handlersFor
  cases hm : mapGet m event with
  | none => simp [hm, mapGet_mapSet_ne _ _ _ _ hne]
  | some hs => simp [hm, mapGet_mapSet_ne _ _ _ _ hne]

theorem removeFirst_of_not_mem (hs : List Handler) (h : Handler)
    (hnm : h ∉ hs) : removeFirst hs h = hs := by
  induction hs with
  | nil => rfl
  | cons x rest ih =>
    simp only [List.mem_cons, not_or] at hnm
    simp [removeFirst, Ne.symm hnm.1, ih hnm.2]

theorem removeFirst_append_of_not_mem (l : List Handler) (h : Handler)
    (hnm : h ∉ l) : removeFirst (l ++ [h]) h = l := by
  induction l with
  | nil => simp [removeFirst]
  | cons x rest ih =>
    simp only [List.mem_cons, not_or] at hnm
    simp [removeFirst, Ne.symm hnm.1, ih hnm.2]

theorem handlersFor_off_self (m : HandlerMap) (event : String) (h : Handler) :
    handlersFor (off m event h) event = removeFirst (handlersFor m event) h := by
  unfold off handlersFor
  cases hm : mapGet m event with
  | none => simp [hm, removeFirst]
  | some hs => simp [hm, mapGet_mapSet_self]

theorem handlersFor_off_ne (m : HandlerMap) (event event' : String) (h : Handler)
    (hne : event' ≠ event) :
    handlersFor (off m event h) event' = handlersFor m event' := by
  unfold off handlersFor
  cases hm : mapGet m event with
  | none => simp [hm]
  | some hs => simp [hm, mapGet_mapSet_ne _ _ _ _ hne]

theorem runHandlers_of_no_throw (hs : List Handler)
    (hok : ∀ h ∈ hs, h.throws = false) : runHandlers hs = (hs, false) := by
  induction hs with
  | nil => rfl
  | cons x rest ih =>
    have hx := hok x (List.mem_cons_self x rest)
    have hrest : ∀ h ∈ rest, h.throws = false := fun h hm => hok h (List.mem_cons_of_mem _ hm)
    simp [runHandlers, hx, ih hrest]

theorem runHandlers_stops_at_throw (a b : List Handler) (t : Handler)
    (hok : ∀ h ∈ a, h.throws = false) (ht : t.throws = true) :
    runHandlers (a ++ t :: b) = (a ++ [t], true) := by
  induction a with
  | nil => simp [runHandlers, ht]
  | cons x rest ih =>
    have hx := hok x (List.mem_cons_self x rest)
    have hrest : ∀ h ∈ rest, h.throws = false := fun h hm => hok h (List.mem_cons_of_mem _ hm)
    simp [runHandlers, hx, ih hrest]

theorem runHandlers_sublist (hs : List Handler) : (runHandlers hs).1.Sublist hs := by
  induction hs with
  | nil => simp [runHandlers]
  | cons x rest ih =>
    by_cases hx : x.throws = true
    · simp [runHandlers, hx]
    · simp only [Bool.not_eq_true] at hx
      simpa [runHandlers, hx] using List.Sublist.cons₂ x ih

theorem emit_invoked_sublist (m : HandlerMap) (event : String) :
    (emit m event).1.Sublist (handlersFor m event) := by
  unfold emit handlersFor
  cases hm : mapGet m event with
  | none => simp
  | some hs => simpa using runHandlers_sublist hs

theorem emit_eq_runHandlers (m : HandlerMap) (event : String) :
    emit m event = runHandlers (handlersFor m event) := by
  unfold emit handlersFor
  cases hm : mapGet m event with
  | none => rfl
  | some hs => rfl

end WS

end ZoomCore
namespace ZoomCore

namespace WS

theorem length_removeFirst (hs : List Handler) (h : Handler) (hm : h ∈ hs) :
    (removeFirst hs h).length = hs.length - 1 := by
  induction hs with
  | nil => cases hm
  | cons x rest ih =>
    by_cases hx : x = h
    · simp [removeFirst, hx]
    · have hr : h ∈ rest := by
        rcases List.mem_cons.mp hm with h1 | h1
        · exact absurd h1.symm hx
        · exact h1
      have hlen : 1 ≤ rest.length := List.length_pos.mpr (List.ne_nil_of_mem hr)
      simp only [removeFirst, hx, if_false, List.length_cons, ih hr]
      omega

theorem count_removeFirst_self (hs : List Handler) (h : Handler) (hm : h ∈ hs) :
    (removeFirst hs h).count h = hs.count h - 1 := by
  induction hs with
  | nil => cases hm
  | cons x rest ih =>
    by_cases hx : x = h
    · subst hx
      simp [removeFirst, List.count_cons_self]
    · have hr : h ∈ rest := by
        rcases List.mem_cons.mp hm with h1 | h1
        · exact absurd h1.symm hx
        · exact h1
      have hne : h ≠ x := fun he => hx he.symm
      simp [removeFirst, hx, List.count_cons_of_ne hne, ih hr]

theorem count_removeFirst_ne (hs : List Handler) (h g : Handler) (hg : g ≠ h) :
    (removeFirst hs h).count g = hs.count g := by
  induction hs with
  | nil => rfl
  | cons x rest ih =>
    by_cases hx : x = h
    · subst hx
      simp [removeFirst, List.count_cons_of_ne hg]
    · by_cases hgx : g = x
      · subst hgx
        simp [removeFirst, hx, List.count_cons_self, ih]
      · simp [removeFirst, hx, List.count_cons_of_ne hgx, ih]

end WS

/-- The handler registry used by the C2 counterexample: two handlers
registered for `transcript_update`, the first of which throws. -/
def exThrowMap : HandlerMap := [("transcript_update", [⟨0, true⟩, ⟨1, false⟩])]

/-- Claim C2 counterexample: with two handlers registered for
`transcript_update` and the first one throwing, `emit` does not invoke the
second registered handler — `handlers.forEach(handler => handler(data))`
has no per-handler exception isolation, so the thrown exception prevents
the invocation of the handlers registered after it, contradicting the
claim that every registered handler is invoked exactly once. -/
theorem dispatch_exception_blocks_rest :
    (⟨1, false⟩ : Handler) ∈ WS.handlersFor exThrowMap "transcript_update" ∧
    (⟨1, false⟩ : Handler) ∉ (WS.emit exThrowMap "transcript_update").1 ∧
    (WS.emit exThrowMap "transcript_update").2 = true := by
  decide

/-- Claim C2 (amended): `emit` invokes the handlers registered for the
message type in registration order; when no handler throws, each is
invoked exactly once, but an exception thrown by one handler propagates
out of the dispatch loop and the handlers registered after it are not
invoked. -/
theorem dispatch_order_and_exception_propagation :
    (∀ (m : HandlerMap) (event : String),
      (∀ h ∈ WS.handlersFor m event, h.throws = false) →
      WS.emit m event = (WS.handlersFor m event, false)) ∧
    (∀ (m : HandlerMap) (event : String) (a b : List Handler) (t : Handler),
      WS.handlersFor m event = a ++ t :: b →
      (∀ h ∈ a, h.throws = false) → t.throws = true →
      WS.emit m event = (a ++ [t], true)) := by
  constructor
  · intro m event hok
    rw [WS.emit_eq_runHandlers]
    exact WS.runHandlers_of_no_throw _ hok
  · intro m event a b t heq hok ht
    rw [WS.emit_eq_runHandlers, heq]
    exact WS.runHandlers_stops_at_throw a b t hok ht

/-- Witness for C2's amended theorem at concrete registries. -/
theorem dispatch_order_witness :
    WS.emit [("status", [⟨2, false⟩, ⟨3, false⟩])] "status"
      = ([⟨2, false⟩, ⟨3, false⟩], false) ∧
    WS.emit exThrowMap "transcript_update" = ([⟨0, true⟩], true) :=
  ⟨dispatch_order_and_exception_propagation.1 _ "status" (by decide),
   dispatch_order_and_exception_propagation.2 exThrowMap "transcript_update"
     [] [⟨1, false⟩] ⟨0, true⟩ (by decide) (by decide) rfl⟩

/-- Claim C10: for a handler `h` not currently registered for `event`,
`on(event, h)` followed by `off(event, h)` restores the observable handler
list for every event, a subsequent dispatch of a message of type `event`
does not invoke `h`, and `off` removes exactly one occurrence of the
handler (the first), leaving the counts of all other handlers unchanged. -/
theorem on_off_roundtrip (m : HandlerMap) (event : String) (h : Handler)
    (hnm : h ∉ WS.handlersFor m event) :
    (∀ event', WS.handlersFor (WS.off (WS.«on» m event h) event h) event'
      = WS.handlersFor m event') ∧
    h ∉ (WS.emit (WS.off (WS.«on» m event h) event h) event).1 ∧
    (∀ m' : HandlerMap, h ∈ WS.handlersFor m' event →
      (WS.handlersFor (WS.off m' event h) event).length
        = (WS.handlersFor m' event).length - 1 ∧
      (WS.handlersFor (WS.off m' event h) event).count h
        = (WS.handlersFor m' event).count h - 1 ∧
      ∀ g, g ≠ h → (WS.handlersFor (WS.off m' event h) event).count g
        = (WS.handlersFor m' event).count g) := by
  have hrestore : ∀ event', WS.handlersFor (WS.off (WS.«on» m event h) event h) event'
      = WS.handlersFor m event' := by
    intro event'
    by_cases he : event' = event
    · subst he
      rw [WS.handlersFor_off_self, WS.handlersFor_on_self]
      exact WS.removeFirst_append_of_not_mem _ _ hnm
    · rw [WS.handlersFor_off_ne _ _ _ _ he, WS.handlersFor_on_ne _ _ _ _ he]
  refine ⟨hrestore, ?_, ?_⟩
  · intro hmem
    have hsub := WS.emit_invoked_sublist (WS.off (WS.«on» m event h) event h) event
    have : h ∈ WS.handlersFor (WS.off (WS.«on» m event h) event h) event :=
      hsub.subset hmem
    rw [hrestore event] at this
    exact hnm this
  · intro m' hmem
    rw [WS.handlersFor_off_self]
    exact ⟨WS.length_removeFirst _ _ hmem, WS.count_removeFirst_self _ _ hmem,
      fun g hg => WS.count_removeFirst_ne _ _ _ hg⟩

/-- Witness for C10 at a concrete registry: registering then removing
handler 7 on the empty registry restores the empty handler list and a
dispatch of `status` does not invoke it. -/
theorem on_off_roundtrip_witness :
    WS.handlersFor (WS.off (WS.«on» [] "status" ⟨7, false⟩) "status" ⟨7, false⟩) "status"
      = WS.handlersFor ([] : HandlerMap) "status" ∧
    (⟨7, false⟩ : Handler) ∉
      (WS.emit (WS.off (WS.«on» [] "status" ⟨7, false⟩) "status" ⟨7, false⟩) "status").1 :=
  ⟨(on_off_roundtrip [] "status" ⟨7, false⟩ (by decide)).1 "status",
   (on_off_roundtrip [] "status" ⟨7, false⟩ (by decide)).2.1⟩

end ZoomCore
namespace ZoomCore

/-- `WebSocket.readyState` values (`CONNECTING`/`OPEN`/`CLOSING`/`CLOSED`). -/
inductive ReadyState where
  | CONNECTING
  | OPEN
  | CLOSING
  | CLOSED
deriving DecidableEq

/-- One `WebSocket` object constructed by `connect`, identified by `id`. -/
structure WSocket where
  id : Nat
  readyState : ReadyState
deriving DecidableEq

/-- The mutable fields of the `WebSocketService` instance: `ws` (the id of
the socket currently referenced, or `null`), `reconnectTimer` (the id of
the armed timeout, or `null`), and `messageHandlers`. -/
structure Service where
  ws : Option Nat
  reconnectTimer : Option Nat
  messageHandlers : HandlerMap
deriving DecidableEq

/-- An externally visible effect of running a method or event handler. -/
inductive Action where
  | handlerCall (event : String) (hid : Nat)
  | consoleLog (msg : String)
  | consoleWarn (msg : String)
  | consoleError (msg : String)
  | wsSend (frame : String)
deriving DecidableEq

/-- The service together with its environment: every socket ever
constructed (with its current `readyState`), the timeouts that are armed
but have not yet fired, counters for fresh socket and timer ids, and the
number of times `new WebSocket(...)` ran (connection attempts).  Timer ids
start at 1, matching the positive ids of `window.setTimeout` on which the
source's truthiness checks rely. -/
structure World where
  svc : Service
  sockets : List WSocket
  pendingTimers : List Nat
  nextSocketId : Nat
  nextTimerId : Nat
  connectAttempts : Nat
deriving DecidableEq

namespace WS

/-- The socket object a socket id refers to. -/
def findSocket (w : World) (sid : Nat) : Option WSocket :=
  w.sockets.find? (fun s => s.id == sid)

/-- Overwrite the `readyState` of the socket with id `sid`. -/
def setSocketState (w : World) (sid : Nat) (rs : ReadyState) : World :=
  { w with sockets :=
      w.sockets.map (fun s => if s.id == sid then { s with readyState := rs } else s) }

/-- `clearReconnectTimer()`: if a timer is armed, `clearTimeout` it (so it
can no longer fire) and null the field. -/
def clearReconnectTimer (w : World) : World :=
  match w.svc.reconnectTimer with
  | none => w
  | some t =>
    { w with
      svc := { w.svc with reconnectTimer := none }
      pendingTimers := w.pendingTimers.filter (fun t' => t' ≠ t) }

/-- `scheduleReconnect()`: arm a fresh reconnect timeout unless one is
already recorded in `reconnectTimer`. -/
def scheduleReconnect (w : World) : World :=
  match w.svc.reconnectTimer with
  | some _ => w
  | none =>
    { w with
      svc := { w.svc with reconnectTimer := some w.nextTimerId }
      pendingTimers := w.pendingTimers ++ [w.nextTimerId]
      nextTimerId := w.nextTimerId + 1 }

/-- `connect()`: construct a new `WebSocket` (initially `CONNECTING`),
install the four event handlers on it, and overwrite `this.ws` with it.
The source has no already-connected guard, so this runs identically in
every state; socket construction is modelled as succeeding (the
surrounding `try`/`catch` only guards constructor failure). -/
def connect (w : World) : World :=
  { w with
    svc := { w.svc with ws := some w.nextSocketId }
    sockets := w.sockets ++ [⟨w.nextSocketId, ReadyState.CONNECTING⟩]
    nextSocketId := w.nextSocketId + 1
    connectAttempts := w.connectAttempts + 1 }

/-- `disconnect()`: clear the reconnect timer; if a socket is referenced,
call `close()` on it (it starts closing and its `close` event will still
fire later) and null the reference. -/
def disconnect (w : World) : World :=
  let w1 := clearReconnectTimer w
  match w1.svc.ws with
  | none => w1
  | some sid =>
    let w2 :=
      match findSocket w1 sid with
      | some s =>
        if s.readyState = ReadyState.CLOSING ∨ s.readyState = ReadyState.CLOSED then w1
        else setSocketState w1 sid ReadyState.CLOSING
      | none => w1
    { w2 with svc := { w2.svc with ws := none } }

/-- The guard of `send`: `this.ws && this.ws.readyState === WebSocket.OPEN`. -/
def transportOpen (w : World) : Bool :=
  match w.svc.ws with
  | some sid =>
    match findSocket w sid with
    | some s => s.readyState == ReadyState.OPEN
    | none => false
  | none => false

/-- `send(type, data)`: if `this.ws` is non-null and its `readyState` is
`OPEN`, hand the serialized frame to the socket; otherwise only log
`console.warn('WebSocket is not connected')` — the message is dropped
without being buffered and without any handler being notified. -/
def send (w : World) (type_ : String) (payload : String) : World × List Action :=
  if transportOpen w then
    (w, [Action.wsSend (type_ ++ ":" ++ payload)])
  else
    (w, [Action.consoleWarn "WebSocket is not connected"])

/-- `sendAudioChunk(audioData, timestamp)` forwards to
`send('audio_chunk', …)`. -/
def sendAudioChunk (w : World) (audioData : String) : World × List Action :=
  send w "audio_chunk" audioData

/-- The body of the `onopen` handler installed by `connect`:
`console.log`, `clearReconnectTimer()`, `emit('connected', null)`. -/
def onOpenBody (w : World) : World × List Action :=
  let w1 := clearReconnectTimer w
  let r := emit w1.svc.messageHandlers "connected"
  (w1, Action.consoleLog "WebSocket connected"
        :: r.1.map (fun h => Action.handlerCall "connected" h.id))

/-- The body of the `onclose` handler installed by `connect`:
`console.log`, `emit('disconnected', null)`, `scheduleReconnect()`.  It
runs whenever the socket's `close` event fires — also after an explicit
`disconnect()`, because `disconnect` nulls `this.ws` but does not detach
the handler or consult any flag.  `scheduleReconnect` is skipped only if a
`disconnected` handler throws out of `emit`. -/
def onCloseBody (w : World) : World × List Action :=
  let r := emit w.svc.messageHandlers "disconnected"
  let acts := Action.consoleLog "WebSocket disconnected"
        :: r.1.map (fun h => Action.handlerCall "disconnected" h.id)
  if r.2 then (w, acts) else (scheduleReconnect w, acts)

/-- The body of the `onmessage` handler installed by `connect`: parse the
frame and `emit(data.type, data)`; `JSON.parse` failure (and any exception
a handler throws out of `emit`) is caught and logged, and nothing else
happens.  A frame is modelled by the result of `JSON.parse` on
`event.data`: `some type_` when it parses to an object whose `type` field
is `type_`, `none` when `JSON.parse` throws. -/
def onMessageBody (w : World) (frame : Option String) : World × List Action :=
  match frame with
  | none => (w, [Action.consoleError "Error parsing WebSocket message:"])
  | some type_ =>
    let r := emit w.svc.messageHandlers type_
    let acts := r.1.map (fun h => Action.handlerCall type_ h.id)
    if r.2 then (w, acts ++ [Action.consoleError "Error parsing WebSocket message:"])
    else (w, acts)

/-- The environment delivers the `open` event of socket `sid`: its
`readyState` becomes `OPEN` and the `onopen` handler body runs. -/
def fireOpen (w : World) (sid : Nat) : World × List Action :=
  match findSocket w sid with
  | some s =>
    if s.readyState = ReadyState.CONNECTING then
      onOpenBody (setSocketState w sid ReadyState.OPEN)
    else (w, [])
  | none => (w, [])

/-- The environment delivers the `close` event of socket `sid` (after an
explicit `close()`, a failed connection attempt, or a network drop): its
`readyState` becomes `CLOSED` and the `onclose` handler body runs. -/
def fireClose (w : World) (sid : Nat) : World × List Action :=
  match findSocket w sid with
  | some s =>
    if s.readyState = ReadyState.CLOSED then (w, [])
    else onCloseBody (setSocketState w sid ReadyState.CLOSED)
  | none => (w, [])

/-- The environment delivers a `message` event on socket `sid` (only an
`OPEN` socket receives messages): the `onmessage` handler body runs. -/
def fireMessage (w : World) (sid : Nat) (frame : Option String) : World × List Action :=
  match findSocket w sid with
  | some s =>
    if s.readyState = ReadyState.OPEN then onMessageBody w frame
    else (w, [])
  | none => (w, [])

/-- The environment fires the armed reconnect timeout `t`: the callback
logs and calls `this.connect()` (without nulling `reconnectTimer`). -/
def fireReconnectTimer (w : World) (t : Nat) : World × List Action :=
  if t ∈ w.pendingTimers then
    (connect { w with pendingTimers := w.pendingTimers.filter (fun t' => t' ≠ t) },
     [Action.consoleLog "Attempting to reconnect WebSocket..."])
  else (w, [])

/-- The freshly constructed service (`new WebSocketService()`), before any
call: no socket, no timer, no handlers, no attempts. -/
def initialWorld : World :=
  { svc := { ws := none, reconnectTimer := none, messageHandlers := [] }
    sockets := []
    pendingTimers := []
    nextSocketId := 0
    nextTimerId := 1
    connectAttempts := 0 }

end WS

end ZoomCore
namespace ZoomCore

/-- Whether an action is the invocation of a registered handler (the only
way the service notifies its caller of an event). -/
def isHandlerCall : Action → Bool
  | Action.handlerCall _ _ => true
  | _ => false

/-- The world after `connect()` on a fresh service followed by delivery of
the socket's `open` event: one socket, id 0, `OPEN`, no timer armed. -/
def afterOpenWorld : World := (WS.fireOpen (WS.connect WS.initialWorld) 0).1

/-- The world after `disconnect()` on `afterOpenWorld` followed by the
delivery of the `close` event that `ws.close()` triggers. -/
def afterDisconnectClose : World := (WS.fireClose (WS.disconnect afterOpenWorld) 0).1

/-- Claim C1 (code-bug demonstration): `disconnect()` clears the pending
reconnect timer and nulls `this.ws`, but the `close` event that
`ws.close()` triggers still runs the `onclose` handler, whose
`scheduleReconnect()` arms a fresh reconnect timeout; when that timeout
fires, `connect()` runs again — a connection attempt after an explicit
`disconnect()` with no intervening `connect()` call, contradicting the
spec's requirement that `close()` is terminal until `open()`. -/
theorem disconnect_then_close_event_rearms_reconnect :
    (WS.disconnect afterOpenWorld).svc.reconnectTimer = none ∧
    (WS.disconnect afterOpenWorld).pendingTimers = [] ∧
    afterDisconnectClose.svc.reconnectTimer = some 1 ∧
    afterDisconnectClose.pendingTimers = [1] ∧
    (WS.fireReconnectTimer afterDisconnectClose 1).1.connectAttempts
      = (WS.disconnect afterOpenWorld).connectAttempts + 1 ∧
    (WS.fireReconnectTimer afterDisconnectClose 1).1.svc.ws = some 1 := by
  decide

/-- Claim C3 counterexample: with the transport `Open` (socket 0 is
`OPEN` and referenced by `this.ws`), calling `connect()` again is not a
no-op: it constructs socket 1, overwrites `this.ws`, and performs another
connection attempt — the underlying connection state changes. -/
theorem connect_not_idempotent :
    WS.findSocket afterOpenWorld 0 = some ⟨0, ReadyState.OPEN⟩ ∧
    afterOpenWorld.svc.ws = some 0 ∧
    (WS.connect afterOpenWorld).svc.ws ≠ afterOpenWorld.svc.ws ∧
    (WS.connect afterOpenWorld).connectAttempts ≠ afterOpenWorld.connectAttempts := by
  decide

/-- Claim C3 (amended): `connect()` has no already-Connecting/Open guard;
in every state it constructs a fresh `CONNECTING` socket, overwrites
`this.ws` with it and counts a new connection attempt, while the
previously constructed sockets are left untouched (in particular an
already-open socket is abandoned without being closed). -/
theorem connect_always_constructs (w : World) :
    (WS.connect w).svc.ws = some w.nextSocketId ∧
    (WS.connect w).connectAttempts = w.connectAttempts + 1 ∧
    (WS.connect w).sockets = w.sockets ++ [⟨w.nextSocketId, ReadyState.CONNECTING⟩] ∧
    (WS.connect w).svc.reconnectTimer = w.svc.reconnectTimer ∧
    (WS.connect w).svc.messageHandlers = w.svc.messageHandlers := by
  exact ⟨rfl, rfl, rfl, rfl, rfl⟩

/-- Witness for C3's amended theorem at the concrete open world. -/
theorem connect_always_constructs_witness :
    (WS.connect afterOpenWorld).svc.ws = some afterOpenWorld.nextSocketId ∧
    (WS.connect afterOpenWorld).connectAttempts = afterOpenWorld.connectAttempts + 1 ∧
    (WS.connect afterOpenWorld).sockets
      = afterOpenWorld.sockets ++ [⟨afterOpenWorld.nextSocketId, ReadyState.CONNECTING⟩] ∧
    (WS.connect afterOpenWorld).svc.reconnectTimer = afterOpenWorld.svc.reconnectTimer ∧
    (WS.connect afterOpenWorld).svc.messageHandlers
      = afterOpenWorld.svc.messageHandlers :=
  connect_always_constructs afterOpenWorld

/-- A service that has never connected (`this.ws === null`) but has a
handler registered for the `error` event — the state in which the claimed
error-event notification of a dropped `send` would have to happen. -/
def disconnectedWithErrorHandler : World :=
  { WS.initialWorld with
    svc := { ws := none, reconnectTimer := none
             messageHandlers := [("error", [⟨5, false⟩])] } }

/-- Claim C4 counterexample: `send` on a disconnected transport with an
`error` handler registered performs only `console.warn('WebSocket is not
connected')`; no handler is invoked, so the caller is not notified via an
error event. -/
theorem send_disconnected_no_error_event :
    WS.handlersFor disconnectedWithErrorHandler.svc.messageHandlers "error"
      = [⟨5, false⟩] ∧
    (WS.send disconnectedWithErrorHandler "audio_chunk" "abc").2
      = [Action.consoleWarn "WebSocket is not connected"] ∧
    (WS.send disconnectedWithErrorHandler "audio_chunk" "abc").2.all
      (fun a => !(isHandlerCall a)) = true := by
  decide

/-- Claim C4 (amended): whenever the transport is not Open, `send` leaves
the entire state unchanged (nothing is buffered and nothing can be
transmitted later), performs no socket send and invokes no handler, and
its only effect is the `console.warn`; as a total function it never blocks
and never throws. -/
theorem send_not_open_drops (w : World) (ty payload : String)
    (h : WS.transportOpen w = false) :
    WS.send w ty payload = (w, [Action.consoleWarn "WebSocket is not connected"]) ∧
    (WS.send w ty payload).2.all (fun a => !(isHandlerCall a)) = true ∧
    ∀ frame, Action.wsSend frame ∉ (WS.send w ty payload).2 := by
  have hmain : WS.send w ty payload
      = (w, [Action.consoleWarn "WebSocket is not connected"]) := by
    unfold WS.send
    simp [h]
  refine ⟨hmain, ?_, ?_⟩
  · rw [hmain]
    rfl
  · intro frame
    rw [hmain]
    simp

/-- Witness for C4's amended theorem at the concrete disconnected world. -/
theorem send_not_open_drops_witness :
    WS.transportOpen disconnectedWithErrorHandler = false ∧
    WS.send disconnectedWithErrorHandler "audio_chunk" "xyz"
      = (disconnectedWithErrorHandler,
         [Action.consoleWarn "WebSocket is not connected"]) :=
  ⟨rfl, (send_not_open_drops disconnectedWithErrorHandler "audio_chunk" "xyz" rfl).1⟩

/-- Claim C6: delivery of a frame that fails to parse (`JSON.parse`
throws) on an open socket is caught by the `onmessage` handler: the error
is logged, the frame is discarded, no registered handler is invoked, the
state is unchanged and the socket remains `OPEN` — the failure neither
closes the connection nor escapes to the caller. -/
theorem malformed_frame_logged_discarded (w : World) (sid : Nat) (s : WSocket)
    (hfind : WS.findSocket w sid = some s) (hopen : s.readyState = ReadyState.OPEN) :
    (WS.fireMessage w sid none).1 = w ∧
    (WS.fireMessage w sid none).2
      = [Action.consoleError "Error parsing WebSocket message:"] ∧
    (WS.fireMessage w sid none).2.all (fun a => !(isHandlerCall a)) = true ∧
    WS.findSocket (WS.fireMessage w sid none).1 sid = some s := by
  unfold WS.fireMessage
  rw [hfind]
  simp [hopen, WS.onMessageBody, isHandlerCall, hfind]

/-- Witness for C6 at the concrete open world and a malformed frame. -/
theorem malformed_frame_witness :
    WS.findSocket afterOpenWorld 0 = some ⟨0, ReadyState.OPEN⟩ ∧
    (WS.fireMessage afterOpenWorld 0 none).1 = afterOpenWorld ∧
    (WS.fireMessage afterOpenWorld 0 none).2
      = [Action.consoleError "Error parsing WebSocket message:"] :=
  ⟨by decide,
   (malformed_frame_logged_discarded afterOpenWorld 0 ⟨0, ReadyState.OPEN⟩
      (by decide) rfl).1,
   (malformed_frame_logged_discarded afterOpenWorld 0 ⟨0, ReadyState.OPEN⟩
      (by decide) rfl).2.1⟩

end ZoomCore
namespace ZoomCore

/-- `MediaRecorder.state` values. -/
inductive RecorderState where
  | recording
  | paused
  | inactive
deriving DecidableEq

/-- `AudioContext.state` values (the ones the hook inspects). -/
inductive ACState where
  | running
  | closed
deriving DecidableEq

/-- The ref cells and React state of the `useAudioRecorder` hook.
`stream` records the number of live tracks of the captured `MediaStream`;
`analyser`/`source` record only presence; `animationFrame` holds the id
returned by `requestAnimationFrame`, with `nextRafId` supplying fresh
ids. -/
structure HookState where
  mediaRecorder : Option RecorderState
  audioContext : Option ACState
  analyser : Option Unit
  source : Option Unit
  stream : Option Nat
  animationFrame : Option Nat
  nextRafId : Nat
  isRecording : Bool
  isPaused : Bool
  audioLevel : ℚ
  error : Option String
deriving DecidableEq

/-- An external effect of `stopRecording`. -/
inductive RecAction where
  | recorderStop
  | trackStop
  | contextClose
  | cancelFrame (id : Nat)
deriving DecidableEq

namespace Rec

/-- `calculateAudioLevel()`: bail out when the analyser ref is null
(leaving every field, including `audioLevel`, untouched); otherwise read
the byte frequency data (`vals`, one byte per bin — the source array has
`frequencyBinCount = 128` entries, so it is never empty), set the level to
`min(100, average/255*100)`, and re-arm the animation frame while
recording and not paused. -/
def calculateAudioLevel (st : HookState) (vals : List Nat) : HookState :=
  match st.analyser with
  | none => st
  | some _ =>
    let average : ℚ := ((vals.map (fun (v : Nat) => (v : ℚ))).sum) / (vals.length : ℚ)
    let normalizedLevel : ℚ := min 100 (average / 255 * 100)
    let st1 := { st with audioLevel := normalizedLevel }
    if st1.isRecording && !st1.isPaused then
      { st1 with animationFrame := some st1.nextRafId, nextRafId := st1.nextRafId + 1 }
    else st1

/-- `stopRecording()`: stop the recorder unless already inactive, stop
every track of the stream, close the audio context unless already closed,
cancel the pending animation frame, null every ref, and reset
`isRecording`, `isPaused` and `audioLevel`. -/
def stopRecording (st : HookState) : HookState × List RecAction :=
  let acts1 : List RecAction :=
    match st.mediaRecorder with
    | some rs => if rs ≠ RecorderState.inactive then [RecAction.recorderStop] else []
    | none => []
  let acts2 : List RecAction :=
    match st.stream with
    | some n => List.replicate n RecAction.trackStop
    | none => []
  let acts3 : List RecAction :=
    match st.audioContext with
    | some acs => if acs ≠ ACState.closed then [RecAction.contextClose] else []
    | none => []
  let acts4 : List RecAction :=
    match st.animationFrame with
    | some fid => [RecAction.cancelFrame fid]
    | none => []
  ({ st with
      mediaRecorder := none
      audioContext := none
      analyser := none
      source := none
      stream := none
      animationFrame := none
      isRecording := false
      isPaused := false
      audioLevel := 0 },
   acts1 ++ acts2 ++ acts3 ++ acts4)

/-- The success path of `startRecording()`: acquire the stream, create the
audio context, analyser and source, create the recorder and start it with
1-second chunks, and mark recording.  (The level-loop kick-off is modelled
separately by `calculateAudioLevel`.) -/
def startRecordingOk (st : HookState) : HookState :=
  { st with
      error := none
      stream := some 1
      audioContext := some ACState.running
      analyser := some ()
      source := some ()
      mediaRecorder := some RecorderState.recording
      isRecording := true }

/-- The failure path of `startRecording()` (`getUserMedia` rejected):
only the error message changes. -/
def startRecordingFail (st : HookState) : HookState :=
  { st with error := some "Failed to start recording" }

end Rec

/-- Claim C7: `stopRecording` is idempotent — one call already yields the
terminal state (recording off, not paused, audio level 0, every capture
ref nulled), and a second call leaves that state unchanged and performs no
external effect (no recorder stop, no track stop, no context close, no
frame cancellation). -/
theorem stopRecording_idempotent (st : HookState) :
    (Rec.stopRecording (Rec.stopRecording st).1).1 = (Rec.stopRecording st).1 ∧
    (Rec.stopRecording (Rec.stopRecording st).1).2 = [] ∧
    (Rec.stopRecording st).1.isRecording = false ∧
    (Rec.stopRecording st).1.isPaused = false ∧
    (Rec.stopRecording st).1.audioLevel = 0 ∧
    (Rec.stopRecording st).1.mediaRecorder = none ∧
    (Rec.stopRecording st).1.audioContext = none ∧
    (Rec.stopRecording st).1.analyser = none ∧
    (Rec.stopRecording st).1.source = none ∧
    (Rec.stopRecording st).1.stream = none ∧
    (Rec.stopRecording st).1.animationFrame = none := by
  refine ⟨?_, rfl, rfl, rfl, rfl, rfl, rfl, rfl, rfl, rfl, rfl⟩
  simp [Rec.stopRecording]

/-- The hook state used by the C9 counterexample: the analyser ref is
null (capture torn down) while the displayed level is still 50. -/
def staleLevelState : HookState :=
  { mediaRecorder := none
    audioContext := none
    analyser := none
    source := none
    stream := none
    animationFrame := none
    nextRafId := 0
    isRecording := false
    isPaused := false
    audioLevel := 50
    error := none }

/-- Claim C9 counterexample: on missing input (`analyserRef.current` is
null) `calculateAudioLevel` returns without reporting anything — the
previous level (here 50) persists instead of the claimed level 0; and the
source computes no `isActive` flag at all. -/
theorem missing_input_keeps_stale_level :
    staleLevelState.analyser = none ∧
    (Rec.calculateAudioLevel staleLevelState [0, 0, 0]).audioLevel = 50 ∧
    (50 : ℚ) ≠ 0 := by
  refine ⟨rfl, rfl, by norm_num⟩

/-- Claim C9 (amended): with an analyser present and a nonempty frame,
the computed level lies in [0, 100]; an all-zero frame yields level
exactly 0; with the analyser ref null the function makes no update at
all, leaving the previous state (and hence the previous level) in place;
no `isActive` flag is produced — the analyzer output is the scalar level
only. -/
theorem audio_level_in_range (st : HookState) (vals : List Nat)
    (ha : st.analyser = some ()) (hne : vals ≠ []) :
    0 ≤ (Rec.calculateAudioLevel st vals).audioLevel ∧
    (Rec.calculateAudioLevel st vals).audioLevel ≤ 100 ∧
    ((∀ v ∈ vals, v = 0) → (Rec.calculateAudioLevel st vals).audioLevel = 0) ∧
    (∀ st' : HookState, st'.analyser = none → Rec.calculateAudioLevel st' vals = st') := by
  have hsum : 0 ≤ (vals.map (fun (v : Nat) => (v : ℚ))).sum := by
    apply List.sum_nonneg
    intro x hx
    obtain ⟨v, hv, hxe⟩ := List.mem_map.mp hx
    rw [← hxe]
    exact Nat.cast_nonneg v
  have haverage : 0 ≤ ((vals.map (fun (v : Nat) => (v : ℚ))).sum) / (vals.length : ℚ) := by
    apply div_nonneg hsum
    exact_mod_cast Nat.zero_le vals.length
  have hlevel : (Rec.calculateAudioLevel st vals).audioLevel
      = min 100 (((vals.map (fun (v : Nat) => (v : ℚ))).sum) / (vals.length : ℚ) / 255 * 100) := by
    unfold Rec.calculateAudioLevel
    rw [ha]
    by_cases hrec : st.isRecording && !st.isPaused <;> simp [hrec]
  refine ⟨?_, ?_, ?_, ?_⟩
  · rw [hlevel]
    apply le_min (by norm_num)
    positivity
  · rw [hlevel]
    exact min_le_left _ _
  · intro hzero
    have : (vals.map (fun (v : Nat) => (v : ℚ))).sum = 0 := by
      apply List.sum_eq_zero
      intro x hx
      obtain ⟨v, hv, hxe⟩ := List.mem_map.mp hx
      rw [← hxe]
      exact_mod_cast hzero v hv
    rw [hlevel, this]
    norm_num
  · intro st' ha'
    unfold Rec.calculateAudioLevel
    rw [ha']

/-- Witness for C9's amended theorem at a concrete frame. -/
theorem audio_level_in_range_witness :
    (Rec.startRecordingOk staleLevelState).analyser = some () ∧
    ([51, 255, 0] : List Nat) ≠ [] ∧
    0 ≤ (Rec.calculateAudioLevel (Rec.startRecordingOk staleLevelState) [51, 255, 0]).audioLevel ∧
    (Rec.calculateAudioLevel (Rec.startRecordingOk staleLevelState) [51, 255, 0]).audioLevel ≤ 100 :=
  ⟨rfl, by decide,
   (audio_level_in_range (Rec.startRecordingOk staleLevelState) [51, 255, 0] rfl (by decide)).1,
   (audio_level_in_range (Rec.startRecordingOk staleLevelState) [51, 255, 0] rfl (by decide)).2.1⟩

end ZoomCore
namespace ZoomCore

/-- The `connectionStatus` React state of `App`. -/
inductive ConnStatus where
  | connected
  | disconnected
  | connecting
deriving DecidableEq

/-- The state of the `App` component (the Session Controller): the
connection flags, the mute flag, the audio-recorder hook state, and the
delayed-start callbacks scheduled by the connect path.  Each entry of
`pendingStarts` is one armed `setTimeout(..., 1000)` callback, recorded
as the `isMuted` value its closure captured when the connection was
initiated — the callback tests that captured value, not the current one,
and nothing ever cancels the timeout. -/
structure AppState where
  isConnected : Bool
  connectionStatus : ConnStatus
  isMuted : Bool
  recorder : HookState
  pendingStarts : List Bool
deriving DecidableEq

/-- An externally visible effect of an `App` handler. -/
inductive AppAction where
  | wsSendAudioChunk (data : String)
  | wsConnect
  | wsDisconnect
  | apiMute
  | apiUnmute
  | apiStartSession
  | apiStopSession
  | toastSuccess (msg : String)
  | toastError (msg : String)
deriving DecidableEq

namespace App

/-- `handleAudioData(audioData)`: forward the chunk over the transport
(`wsService.sendAudioChunk`) only when connected and not muted; otherwise
the chunk is dropped. -/
def handleAudioData (s : AppState) (audioData : String) : List AppAction :=
  if s.isConnected && !s.isMuted then [AppAction.wsSendAudioChunk audioData] else []

/-- `handleToggleMute()`.  `apiOk` is whether the awaited REST call
(`audioAPI.mute`/`audioAPI.unmute`) succeeds — on failure the `catch`
only shows a toast and no state changes; `micOk` is whether
`startRecording`'s `getUserMedia` succeeds on the unmute path (its
failure is caught inside `startRecording`). -/
def handleToggleMute (s : AppState) (apiOk micOk : Bool) : AppState × List AppAction :=
  if s.isMuted then
    if apiOk then
      let s1 := { s with isMuted := false }
      if s1.isConnected && !s1.recorder.isRecording then
        if micOk then
          ({ s1 with recorder := Rec.startRecordingOk s1.recorder },
           [AppAction.apiUnmute, AppAction.toastSuccess "Unmuted"])
        else
          ({ s1 with recorder := Rec.startRecordingFail s1.recorder },
           [AppAction.apiUnmute, AppAction.toastSuccess "Unmuted"])
      else (s1, [AppAction.apiUnmute, AppAction.toastSuccess "Unmuted"])
    else (s, [AppAction.apiUnmute, AppAction.toastError "Failed to toggle mute"])
  else
    if apiOk then
      let s1 := { s with isMuted := true }
      if s1.recorder.isRecording then
        ({ s1 with recorder := (Rec.stopRecording s1.recorder).1 },
         [AppAction.apiMute, AppAction.toastSuccess "Muted"])
      else (s1, [AppAction.apiMute, AppAction.toastSuccess "Muted"])
    else (s, [AppAction.apiMute, AppAction.toastError "Failed to toggle mute"])

/-- `handleToggleConnection()`: on the disconnect path stop the session,
disconnect the transport and stop any running recording; on the connect
path start the session, connect the transport, and schedule the
`setTimeout(..., 1000)` callback that will start recording one second
later.  The callback's closure captures the `isMuted` value of the render
in which the click was handled, so the scheduled entry records the
current `isMuted`; the recording itself starts only when the timeout
fires (`delayedStartFires`).  `isConnected` itself only changes via the
`connected`/`disconnected` subscriptions. -/
def handleToggleConnection (s : AppState) (apiOk : Bool) : AppState × List AppAction :=
  if s.isConnected then
    if apiOk then
      let s1 := if s.recorder.isRecording then { s with recorder := (Rec.stopRecording s.recorder).1 } else s
      (s1, [AppAction.apiStopSession, AppAction.wsDisconnect])
    else (s, [AppAction.apiStopSession, AppAction.toastError "Failed to stop session"])
  else
    if apiOk then
      ({ s with
          connectionStatus := ConnStatus.connecting
          pendingStarts := s.pendingStarts ++ [s.isMuted] },
       [AppAction.apiStartSession, AppAction.wsConnect])
    else
      ({ s with connectionStatus := ConnStatus.disconnected },
       [AppAction.apiStartSession, AppAction.toastError "Failed to start session"])

/-- The oldest armed `setTimeout` callback of the connect path fires (the
timeouts share the 1-second delay, so they fire in scheduling order):
`if (!isMuted) { await startRecording() }`, where the tested `isMuted` is
the stale value the closure captured at scheduling time — toggling mute
during the delay does not stop the callback from starting recording.
`micOk` is whether `startRecording`'s `getUserMedia` succeeds (its
failure is caught inside `startRecording` and by the callback's own
`catch`, which shows a toast). -/
def delayedStartFires (s : AppState) (micOk : Bool) : AppState × List AppAction :=
  match s.pendingStarts with
  | [] => (s, [])
  | capturedMuted :: rest =>
    let s1 := { s with pendingStarts := rest }
    if !capturedMuted then
      if micOk then
        ({ s1 with recorder := Rec.startRecordingOk s1.recorder }, [])
      else
        ({ s1 with recorder := Rec.startRecordingFail s1.recorder },
         [AppAction.toastError "Failed to access microphone"])
    else (s1, [])

/-- The `connected` subscription: mark connected (the follow-up
system-status fetch is a read-only REST call, not modelled). -/
def onConnected (s : AppState) : AppState × List AppAction :=
  ({ s with isConnected := true, connectionStatus := ConnStatus.connected },
   [AppAction.toastSuccess "Connected to AI Assistant"])

/-- The `disconnected` subscription: mark disconnected and stop recording
when it is running. -/
def onDisconnected (s : AppState) : AppState × List AppAction :=
  let s1 := { s with isConnected := false, connectionStatus := ConnStatus.disconnected }
  if s1.recorder.isRecording then
    ({ s1 with recorder := (Rec.stopRecording s1.recorder).1 },
     [AppAction.toastError "Disconnected from AI Assistant"])
  else (s1, [AppAction.toastError "Disconnected from AI Assistant"])

/-- `MediaRecorder.onerror` (fires only while a recorder exists): record
the error message and stop recording. -/
def onRecorderError (s : AppState) : AppState :=
  if s.recorder.mediaRecorder.isSome then
    { s with
      recorder := (Rec.stopRecording { s.recorder with error := some "Recording error occurred" }).1 }
  else s

end App

/-- The events the sequential operational model of the Session Controller
reacts to (spec §4.6/§5: lifecycle transitions are strictly sequential);
`startTimer` is the firing of a connect-path `setTimeout` callback, which
can interleave with the other events — in particular after a mute
toggle. -/
inductive AppEvent where
  | toggleMute (apiOk micOk : Bool)
  | toggleConnection (apiOk : Bool)
  | startTimer (micOk : Bool)
  | wsConnected
  | wsDisconnected
  | audioData (chunk : String)
  | recorderError

/-- One sequential step of the Session Controller.  An `audioData` event
is delivered by `MediaRecorder.ondataavailable`, which only fires while
the recorder is in state `recording`, and whose body drops the blob when
`isPaused`. -/
def appStep (s : AppState) : AppEvent → AppState × List AppAction
  | AppEvent.toggleMute apiOk micOk => App.handleToggleMute s apiOk micOk
  | AppEvent.toggleConnection apiOk => App.handleToggleConnection s apiOk
  | AppEvent.startTimer micOk => App.delayedStartFires s micOk
  | AppEvent.wsConnected => App.onConnected s
  | AppEvent.wsDisconnected => App.onDisconnected s
  | AppEvent.audioData chunk =>
    if s.recorder.mediaRecorder == some RecorderState.recording && !s.recorder.isPaused then
      (s, App.handleAudioData s chunk)
    else (s, [])
  | AppEvent.recorderError => (App.onRecorderError s, [])

/-- The initial `App` state: disconnected, unmuted, recorder idle, no
timeout armed. -/
def appInit : AppState :=
  { isConnected := false
    connectionStatus := ConnStatus.disconnected
    isMuted := false
    pendingStarts := []
    recorder :=
      { mediaRecorder := none
        audioContext := none
        analyser := none
        source := none
        stream := none
        animationFrame := none
        nextRafId := 0
        isRecording := false
        isPaused := false
        audioLevel := 0
        error := none } }

/-- The states the Session Controller can reach from start-up by
sequential events. -/
inductive ReachableApp : AppState → Prop where
  | init : ReachableApp appInit
  | step (s : AppState) (e : AppEvent) : ReachableApp s → ReachableApp (appStep s e).1

/-- The state reached by: click Connect while unmuted (the delayed-start
callback captures `isMuted = false`), toggle Mute within the 1-second
delay (nothing is recording yet, so there is nothing to stop), then the
timeout fires and its stale captured check starts recording. -/
def muteRaceState : AppState :=
  (appStep (appStep (appStep appInit
    (AppEvent.toggleConnection true)).1
    (AppEvent.toggleMute true true)).1
    (AppEvent.startTimer true)).1

/-- Claim C8 counterexample: `muteRaceState` is reachable, is muted, and
has capture running — the connect path's `setTimeout` callback tests the
`isMuted` value its closure captured at scheduling time, so toggling mute
during the 1-second delay does not prevent `startRecording()`; "capture
never runs while muted" fails in a reachable state. -/
theorem mute_during_start_delay_runs_capture :
    ReachableApp muteRaceState ∧
    muteRaceState.isMuted = true ∧
    muteRaceState.recorder.isRecording = true ∧
    muteRaceState.recorder.mediaRecorder = some RecorderState.recording :=
  ⟨ReachableApp.step _ (AppEvent.startTimer true)
     (ReachableApp.step _ (AppEvent.toggleMute true true)
       (ReachableApp.step _ (AppEvent.toggleConnection true) ReachableApp.init)),
   by decide, by decide, by decide⟩

/-- Claim C8 (amended): while muted, `handleAudioData`'s
`isConnected && !isMuted` guard drops every chunk, so no audio chunk is
sent over the Session Transport and a recorder data event produces no
action; and — from any state whatsoever — the mute toggle neither
disconnects nor reconnects the transport and leaves `isConnected`
unchanged.  Capture itself, however, is not guaranteed off while muted:
the connect path starts recording from a 1-second-delayed callback whose
mute check reads the `isMuted` value captured when the connection was
initiated, so toggling mute during that delay reaches a muted state with
recording running (whose produced chunks the guard then drops). -/
theorem muted_drops_chunks_and_transport_kept (s : AppState)
    (hm : s.isMuted = true) :
    (∀ chunk, App.handleAudioData s chunk = []) ∧
    (∀ chunk, (appStep s (AppEvent.audioData chunk)).2 = []) ∧
    (∀ (s' : AppState) (apiOk micOk : Bool),
      (appStep s' (AppEvent.toggleMute apiOk micOk)).1.isConnected = s'.isConnected ∧
      AppAction.wsDisconnect ∉ (appStep s' (AppEvent.toggleMute apiOk micOk)).2 ∧
      AppAction.wsConnect ∉ (appStep s' (AppEvent.toggleMute apiOk micOk)).2) ∧
    (ReachableApp muteRaceState ∧ muteRaceState.isMuted = true ∧
      muteRaceState.recorder.isRecording = true ∧
      (∀ chunk, App.handleAudioData muteRaceState chunk = [])) := by
  have hdrop : ∀ s0 : AppState, s0.isMuted = true →
      ∀ chunk, App.handleAudioData s0 chunk = [] := by
    intro s0 hm0 chunk
    simp [App.handleAudioData, hm0]
  refine ⟨hdrop s hm, ?_, ?_, ?_, ?_, ?_, hdrop muteRaceState (by decide)⟩
  · intro chunk
    simp only [appStep]
    split_ifs with h1
    · exact hdrop s hm chunk
    · rfl
  · intro s' apiOk micOk
    simp only [appStep, App.handleToggleMute]
    split_ifs <;> simp [Rec.startRecordingOk, Rec.startRecordingFail]
  · exact ReachableApp.step _ (AppEvent.startTimer true)
      (ReachableApp.step _ (AppEvent.toggleMute true true)
        (ReachableApp.step _ (AppEvent.toggleConnection true) ReachableApp.init))
  · decide
  · decide

/-- Witness for C8's amended theorem at the concrete muted race state. -/
theorem muted_drops_chunks_witness :
    muteRaceState.isMuted = true ∧
    App.handleAudioData muteRaceState "chunk" = [] ∧
    (appStep muteRaceState (AppEvent.audioData "chunk")).2 = [] :=
  ⟨by decide,
   (muted_drops_chunks_and_transport_kept muteRaceState (by decide)).1 "chunk",
   (muted_drops_chunks_and_transport_kept muteRaceState (by decide)).2.1 "chunk"⟩

end ZoomCore
namespace ZoomCore

/-- Modelled from the spec: the Segmentation Buffer of §4.3 is not
implemented in the shown code (§9: the transport forwards fixed 1-second
chunks directly), so its input chunk — capture time `t` (`capturedAtMs`)
plus the `isActive` classification from the Level Analyzer — is modelled
from the spec's words. -/
structure SegChunk where
  t : Nat
  isActive : Bool
deriving DecidableEq

/-- Modelled from the spec: the segmentation configuration
(`silenceTimeoutMs` default 500, `maxSegmentMs` default 8000–10000). -/
structure SegConfig where
  silenceTimeoutMs : Nat
  maxSegmentMs : Nat
deriving DecidableEq

/-- Modelled from the spec: the per-speaker Open segment — `startMs`, the
time of the last chunk classified active (`lastActiveMs`), and the
appended chunks. -/
structure OpenSegment where
  startMs : Nat
  lastActiveMs : Nat
  chunks : List SegChunk
deriving DecidableEq

/-- Modelled from the spec: a Closed segment as handed to the
transcription boundary — `[startMs, endMs]` plus its ordered chunks. -/
structure Segment where
  startMs : Nat
  endMs : Nat
  chunks : List SegChunk
deriving DecidableEq

/-- Modelled from the spec: the per-speaker state of the Segmentation
Buffer — `current` is the Open segment (`none` in the Silent state) and
`emitted` the Closed-and-dispatched segments in emission order.  Per
§4.3 segmentation is per-speaker and independent across speakers; this is
the machine of one speaker (equivalently, of the single implicit speaker
when `speakerHint` is absent). -/
structure SegState where
  current : Option OpenSegment
  emitted : List Segment
deriving DecidableEq

namespace Seg

/-- Modelled from the spec: the Silent initial state. -/
def initState : SegState := ⟨none, []⟩

/-- Modelled from the spec: `lastActiveMs` after appending chunk `c` at
time `now = c.t`. -/
def newLastActive (o : OpenSegment) (c : SegChunk) : Nat :=
  if c.isActive then c.t else o.lastActiveMs

/-- Modelled from the spec: the close condition checked on each appended
chunk — `now − lastActiveMs > silenceTimeout` OR
`now − startMs > maxSegmentDuration`. -/
def closes (cfg : SegConfig) (o : OpenSegment) (c : SegChunk) : Bool :=
  decide (cfg.silenceTimeoutMs < c.t - newLastActive o c) ||
  decide (cfg.maxSegmentMs < c.t - o.startMs)

/-- Modelled from the spec: one step of the §4.3 state machine.  Silent:
an active chunk opens a segment at `startMs = c.t`, an inactive chunk is
not buffered.  Open: every chunk is appended regardless of its own flag
(to avoid clipping trailing consonants); if the close condition fires the
segment is finalized with `endMs = now` and dispatched, returning to
Silent. -/
def segStep (cfg : SegConfig) (st : SegState) (c : SegChunk) : SegState :=
  match st.current with
  | none =>
    if c.isActive then { st with current := some ⟨c.t, c.t, [c]⟩ } else st
  | some o =>
    if closes cfg o c then
      { current := none, emitted := st.emitted ++ [⟨o.startMs, c.t, o.chunks ++ [c]⟩] }
    else
      { st with current := some ⟨o.startMs, newLastActive o c, o.chunks ++ [c]⟩ }

/-- Modelled from the spec: run the Segmentation Buffer over a chunk
sequence from the Silent state. -/
def segRun (cfg : SegConfig) (cs : List SegChunk) : SegState :=
  cs.foldl (segStep cfg) initState

/-- The chunks covered by the buffer's segments: those of the dispatched
segments, in order, followed by those of the still-open segment. -/
def allSegChunks (st : SegState) : List SegChunk :=
  (st.emitted.map Segment.chunks).flatten ++
    (match st.current with
     | some o => o.chunks
     | none => [])

/-- Whether the buffer retains chunk `c` arriving in state `st`: always
when a segment is Open, and exactly for active chunks when Silent. -/
def kept (st : SegState) (c : SegChunk) : Bool :=
  st.current.isSome || c.isActive

theorem allSegChunks_segStep (cfg : SegConfig) (st : SegState) (c : SegChunk) :
    allSegChunks (segStep cfg st c)
      = allSegChunks st ++ (if kept st c then [c] else []) := by
  obtain ⟨cur, em⟩ := st
  cases cur with
  | none =>
    by_cases hact : c.isActive = true <;>
      simp [segStep, allSegChunks, kept, hact]
  | some o =>
    by_cases hcl : closes cfg o c = true <;>
      simp [segStep, allSegChunks, kept, hcl]

theorem allSegChunks_foldl (cfg : SegConfig) (l : List SegChunk) (st : SegState) :
    ∃ ds : List SegChunk,
      allSegChunks (l.foldl (segStep cfg) st) = allSegChunks st ++ ds ∧ ds.Sublist l := by
  induction l generalizing st with
  | nil => exact ⟨[], by simp, List.Sublist.refl _⟩
  | cons c rest ih =>
    obtain ⟨ds, hds, hsub⟩ := ih (segStep cfg st c)
    rw [List.foldl_cons]
    by_cases hk : kept st c = true
    · refine ⟨c :: ds, ?_, List.Sublist.cons₂ c hsub⟩
      rw [hds, allSegChunks_segStep, if_pos hk]
      simp
    · refine ⟨ds, ?_, List.Sublist.cons c hsub⟩
      rw [hds, allSegChunks_segStep, if_neg hk]
      simp

theorem active_mem_allSegChunks (cfg : SegConfig) (l : List SegChunk) (st : SegState) :
    ∀ c ∈ l, c.isActive = true → c ∈ allSegChunks (l.foldl (segStep cfg) st) := by
  induction l generalizing st with
  | nil => intro c hc; cases hc
  | cons d rest ih =>
    intro c hc hact
    rw [List.foldl_cons]
    rcases List.mem_cons.mp hc with heq | hc'
    · subst heq
      obtain ⟨ds, hds, _⟩ := allSegChunks_foldl cfg rest (segStep cfg st c)
      rw [hds]
      apply List.mem_append_left
      rw [allSegChunks_segStep]
      have hk : kept st c = true := by simp [kept, hact]
      rw [if_pos hk]
      simp
    · exact ih (segStep cfg st d) c hc' hact

end Seg

end ZoomCore
namespace ZoomCore

namespace Seg

/-- The inductive invariant of one speaker's buffer once every chunk time
seen so far is at most `bound`: dispatched segments sit in strictly
ordered, disjoint time ranges containing their chunks, and the open
segment (if any) starts after every dispatched segment ends. -/
def segInv (st : SegState) (bound : Nat) : Prop :=
  List.Chain' (fun a b => a.endMs < b.startMs) st.emitted ∧
  (∀ seg ∈ st.emitted, seg.startMs ≤ seg.endMs ∧ seg.endMs ≤ bound ∧
     ∀ c ∈ seg.chunks, seg.startMs ≤ c.t ∧ c.t ≤ seg.endMs) ∧
  (∀ o, st.current = some o →
     (∀ seg ∈ st.emitted, seg.endMs < o.startMs) ∧
     o.startMs ≤ o.lastActiveMs ∧ o.lastActiveMs ≤ bound ∧
     (∀ c ∈ o.chunks, o.startMs ≤ c.t ∧ c.t ≤ bound))

theorem segInv_init (b : Nat) : segInv initState b := by
  refine ⟨List.chain'_nil, ?_, ?_⟩
  · intro seg hseg
    cases hseg
  · intro o ho
    cases ho

theorem segInv_mono (st : SegState) (b b' : Nat) (hb : b ≤ b') (h : segInv st b) :
    segInv st b' := by
  obtain ⟨h1, h2, h3⟩ := h
  refine ⟨h1, ?_, ?_⟩
  · intro seg hseg
    obtain ⟨p1, p2, p3⟩ := h2 seg hseg
    exact ⟨p1, le_trans p2 hb, p3⟩
  · intro o ho
    obtain ⟨q1, q2, q3, q4⟩ := h3 o ho
    exact ⟨q1, q2, le_trans q3 hb,
      fun c hc => ⟨(q4 c hc).1, le_trans (q4 c hc).2 hb⟩⟩

theorem segInv_step (cfg : SegConfig) (st : SegState) (c : SegChunk) (bound : Nat)
    (hinv : segInv st bound) (hlt : bound < c.t) :
    segInv (segStep cfg st c) c.t := by
  obtain ⟨hchain, hsegs, hopen⟩ := hinv
  obtain ⟨cur, em⟩ := st
  have hsegs' : ∀ seg ∈ em, seg.startMs ≤ seg.endMs ∧ seg.endMs ≤ c.t ∧
      ∀ c' ∈ seg.chunks, seg.startMs ≤ c'.t ∧ c'.t ≤ seg.endMs := by
    intro seg hseg
    obtain ⟨p1, p2, p3⟩ := hsegs seg hseg
    exact ⟨p1, le_trans p2 (le_of_lt hlt), p3⟩
  cases cur with
  | none =>
    by_cases hact : c.isActive = true
    · have hstep : segStep cfg ⟨none, em⟩ c = ⟨some ⟨c.t, c.t, [c]⟩, em⟩ := by
        simp [segStep, hact]
      rw [hstep]
      refine ⟨hchain, hsegs', ?_⟩
      intro o' ho'
      obtain rfl := Option.some.inj ho'
      refine ⟨?_, le_refl _, le_refl _, ?_⟩
      · intro seg hseg
        exact lt_of_le_of_lt (hsegs seg hseg).2.1 hlt
      · intro c' hc'
        have : c' = c := by simpa using hc'
        subst this
        exact ⟨le_refl _, le_refl _⟩
    · have hstep : segStep cfg ⟨none, em⟩ c = ⟨none, em⟩ := by
        simp [segStep, hact]
      rw [hstep]
      exact segInv_mono ⟨none, em⟩ bound c.t (le_of_lt hlt) ⟨hchain, hsegs, hopen⟩
  | some o =>
    obtain ⟨q1, q2, q3, q4⟩ := hopen o rfl
    have hstart_le : o.startMs ≤ c.t :=
      le_trans q2 (le_trans q3 (le_of_lt hlt))
    by_cases hcl : closes cfg o c = true
    · have hstep : segStep cfg ⟨some o, em⟩ c
          = ⟨none, em ++ [⟨o.startMs, c.t, o.chunks ++ [c]⟩]⟩ := by
        simp [segStep, hcl]
      rw [hstep]
      refine ⟨?_, ?_, ?_⟩
      · rw [List.chain'_append]
        refine ⟨hchain, List.chain'_singleton _, ?_⟩
        intro x hx y hy
        have hy' : (⟨o.startMs, c.t, o.chunks ++ [c]⟩ : Segment) = y := by simpa using hy
        subst hy'
        obtain ⟨hne, rfl⟩ := List.mem_getLast?_eq_getLast hx
        exact q1 _ (List.getLast_mem hne)
      · intro seg hseg
        rcases List.mem_append.mp hseg with hseg | hseg
        · exact hsegs' seg hseg
        · have : seg = ⟨o.startMs, c.t, o.chunks ++ [c]⟩ := by simpa using hseg
          subst this
          refine ⟨hstart_le, le_refl _, ?_⟩
          intro c' hc'
          rcases List.mem_append.mp hc' with hc' | hc'
          · exact ⟨(q4 c' hc').1, le_trans (q4 c' hc').2 (le_of_lt hlt)⟩
          · have : c' = c := by simpa using hc'
            subst this
            exact ⟨hstart_le, le_refl _⟩
      · intro o' ho'
        cases ho'
    · have hstep : segStep cfg ⟨some o, em⟩ c
          = ⟨some ⟨o.startMs, newLastActive o c, o.chunks ++ [c]⟩, em⟩ := by
        simp [segStep, hcl]
      rw [hstep]
      refine ⟨hchain, hsegs', ?_⟩
      intro o' ho'
      obtain rfl := Option.some.inj ho'
      refine ⟨q1, ?_, ?_, ?_⟩
      · unfold newLastActive
        by_cases hact : c.isActive = true
        · rw [if_pos hact]
          exact hstart_le
        · rw [if_neg hact]
          exact q2
      · unfold newLastActive
        by_cases hact : c.isActive = true
        · rw [if_pos hact]
        · rw [if_neg hact]
          exact le_trans q3 (le_of_lt hlt)
      · intro c' hc'
        rcases List.mem_append.mp hc' with hc' | hc'
        · exact ⟨(q4 c' hc').1, le_trans (q4 c' hc').2 (le_of_lt hlt)⟩
        · have : c' = c := by simpa using hc'
          subst this
          exact ⟨hstart_le, le_refl _⟩

theorem segInv_first (cfg : SegConfig) (c : SegChunk) :
    segInv (segStep cfg initState c) c.t := by
  by_cases hact : c.isActive = true
  · have hstep : segStep cfg initState c = ⟨some ⟨c.t, c.t, [c]⟩, []⟩ := by
      simp [segStep, initState, hact]
    rw [hstep]
    refine ⟨List.chain'_nil, ?_, ?_⟩
    · intro seg hseg
      cases hseg
    · intro o' ho'
      obtain rfl := Option.some.inj ho'
      refine ⟨?_, le_refl _, le_refl _, ?_⟩
      · intro seg hseg
        cases hseg
      · intro c' hc'
        have : c' = c := by simpa using hc'
        subst this
        exact ⟨le_refl _, le_refl _⟩
  · have hstep : segStep cfg initState c = initState := by
      simp [segStep, initState, hact]
    rw [hstep]
    exact segInv_init _

theorem segInv_foldl (cfg : SegConfig) (l : List SegChunk) (st : SegState) (bound : Nat)
    (hinv : segInv st bound)
    (hchain : List.Chain (fun a b => a < b) bound (l.map SegChunk.t)) :
    ∃ bound', segInv (l.foldl (segStep cfg) st) bound' := by
  induction l generalizing st bound with
  | nil => exact ⟨bound, hinv⟩
  | cons c rest ih =>
    rw [List.map_cons, List.chain_cons] at hchain
    rw [List.foldl_cons]
    exact ih (segStep cfg st c) c.t (segInv_step cfg st c bound hinv hchain.1) hchain.2

theorem segRun_inv (cfg : SegConfig) (cs : List SegChunk)
    (hsorted : List.Chain' (fun a b => a.t < b.t) cs) :
    ∃ bound, segInv (segRun cfg cs) bound := by
  cases cs with
  | nil => exact ⟨0, segInv_init 0⟩
  | cons c rest =>
    have hchain : List.Chain (fun a b => a.t < b.t) c rest := hsorted
    have hchain' : List.Chain (fun a b => a < b) c.t (rest.map SegChunk.t) :=
      (List.chain_map SegChunk.t).mpr hchain
    unfold segRun
    rw [List.foldl_cons]
    exact segInv_foldl cfg rest (segStep cfg initState c) c.t (segInv_first cfg c) hchain'

theorem nodup_of_sorted (cs : List SegChunk)
    (hsorted : List.Chain' (fun a b => a.t < b.t) cs) : cs.Nodup := by
  haveI : IsTrans SegChunk (fun a b => a.t < b.t) := ⟨fun a b c h1 h2 => lt_trans h1 h2⟩
  have hpw : List.Pairwise (fun a b => a.t < b.t) cs :=
    List.chain'_iff_pairwise.mp hsorted
  refine hpw.imp ?_
  intro a b hab hae
  rw [hae] at hab
  exact lt_irrefl _ hab

end Seg

end ZoomCore
namespace ZoomCore

/-- Claim C5 counterexample: a chunk classified inactive that arrives in
the Silent state is buffered by no segment at all — the §4.3 machine only
opens a segment on an active chunk — so the claimed "every input chunk of
a speaker is covered exactly once, with no chunk omitted" fails on this
one-chunk input (and in general the silent span between two utterances is
a gap between consecutive segments). -/
theorem silent_chunk_in_no_segment :
    Seg.allSegChunks (Seg.segRun ⟨500, 8000⟩ [⟨0, false⟩]) = [] ∧
    (⟨0, false⟩ : SegChunk) ∉ Seg.allSegChunks (Seg.segRun ⟨500, 8000⟩ [⟨0, false⟩]) := by
  decide

/-- Claim C5 (amended, modelled from the spec): over any strictly
time-ordered chunk sequence for one speaker, the chunks buffered by the
Segmentation Buffer's segments (dispatched ones plus the still-open one)
form a subsequence of the input — no chunk is duplicated or reordered;
every chunk classified active is covered, and exactly once; dispatched
segments have disjoint `[startMs, endMs]` ranges in emission order, each
containing the times of exactly its own chunks; and the open segment
starts strictly after every dispatched segment ends.  Chunks classified
inactive that arrive while the speaker is Silent are covered by no
segment, and consecutive segments of a speaker may be separated by a
silent gap. -/
theorem segmentation_buffer_coverage (cfg : SegConfig) (cs : List SegChunk)
    (hsorted : List.Chain' (fun a b => a.t < b.t) cs) :
    (Seg.allSegChunks (Seg.segRun cfg cs)).Sublist cs ∧
    (∀ c ∈ cs, c.isActive = true → c ∈ Seg.allSegChunks (Seg.segRun cfg cs)) ∧
    (∀ c ∈ cs, c.isActive = true → (Seg.allSegChunks (Seg.segRun cfg cs)).count c = 1) ∧
    List.Chain' (fun a b => a.endMs < b.startMs) (Seg.segRun cfg cs).emitted ∧
    (∀ seg ∈ (Seg.segRun cfg cs).emitted, seg.startMs ≤ seg.endMs ∧
      ∀ c ∈ seg.chunks, seg.startMs ≤ c.t ∧ c.t ≤ seg.endMs) ∧
    (∀ o, (Seg.segRun cfg cs).current = some o →
      ∀ seg ∈ (Seg.segRun cfg cs).emitted, seg.endMs < o.startMs) := by
  obtain ⟨ds, hds, hsub⟩ := Seg.allSegChunks_foldl cfg cs Seg.initState
  have hall : Seg.allSegChunks (Seg.segRun cfg cs) = ds := by
    rw [Seg.segRun, hds]
    simp [Seg.allSegChunks, Seg.initState]
  have hsub' : (Seg.allSegChunks (Seg.segRun cfg cs)).Sublist cs := by
    rw [hall]
    exact hsub
  have hnodup : (Seg.allSegChunks (Seg.segRun cfg cs)).Nodup :=
    List.Nodup.sublist hsub' (Seg.nodup_of_sorted cs hsorted)
  have hmem : ∀ c ∈ cs, c.isActive = true → c ∈ Seg.allSegChunks (Seg.segRun cfg cs) :=
    Seg.active_mem_allSegChunks cfg cs Seg.initState
  obtain ⟨bound, hinv⟩ := Seg.segRun_inv cfg cs hsorted
  obtain ⟨hchain, hsegs, hopen⟩ := hinv
  refine ⟨hsub', hmem, ?_, hchain, ?_, ?_⟩
  · intro c hc hact
    exact List.count_eq_one_of_mem hnodup (hmem c hc hact)
  · intro seg hseg
    obtain ⟨p1, _, p3⟩ := hsegs seg hseg
    exact ⟨p1, p3⟩
  · intro o ho
    exact (hopen o ho).1

/-- The §8 scenario chunk stream: speaker active at t = 0, 300, 600, 900,
then a silent chunk at t = 1600 (silence longer than the 500 ms
timeout). -/
def scenarioChunks : List SegChunk :=
  [⟨0, true⟩, ⟨300, true⟩, ⟨600, true⟩, ⟨900, true⟩, ⟨1600, false⟩]

/-- Witness for C5's amended theorem at the §8 scenario stream. -/
theorem scenarioChunks_sorted :
    List.Chain' (fun a b : SegChunk => a.t < b.t) scenarioChunks := by
  norm_num [scenarioChunks, List.chain'_cons]

theorem segmentation_buffer_coverage_witness :
    List.Chain' (fun a b : SegChunk => a.t < b.t) scenarioChunks ∧
    (Seg.allSegChunks (Seg.segRun ⟨500, 8000⟩ scenarioChunks)).Sublist scenarioChunks ∧
    (⟨300, true⟩ : SegChunk) ∈ Seg.allSegChunks (Seg.segRun ⟨500, 8000⟩ scenarioChunks) :=
  ⟨scenarioChunks_sorted,
   (segmentation_buffer_coverage ⟨500, 8000⟩ scenarioChunks scenarioChunks_sorted).1,
   (segmentation_buffer_coverage ⟨500, 8000⟩ scenarioChunks scenarioChunks_sorted).2.1
     ⟨300, true⟩ (by decide) rfl⟩

end ZoomCore
